import Mathlib

/-!
Verification development for the `kwestyungenerator` Telegram quiz bot
(`kwestyon.py`).  The script collects a topic from a chat message, builds a
generation prompt, calls a text-generation HTTP endpoint, extracts a JSON
array of multiple-choice questions from the free-text response, and
dispatches each question as a message + quiz poll with fixed pacing.

The embedding below follows the first (full-featured) variant of the script,
the one the claims' line references point at.  Python strings are modelled
as `List Char` (a Python `str` is a sequence of code points); Python library
behaviour that the script relies on (`str.find`, `str.rfind`, slicing,
`str.strip`, `str.lower`, `str.replace`, `json.loads`, dict `.get`,
`telegram.helpers.escape_markdown`) is embedded from its documented
semantics.  All definitions are executable.
-/

/-- JSON values as produced by `json.loads`.  Numeric literals are kept as
their source lexeme (the script never computes with numbers, and keeping the
lexeme avoids committing to floating-point semantics). -/
inductive JsonV where
  | null
  | bool (b : Bool)
  | num (lex : List Char)
  | str (s : List Char)
  | arr (elems : List JsonV)
  | obj (fields : List (List Char × JsonV))

/-- JSON insignificant whitespace, as accepted by Python `json.loads`. -/
def isJsonWs (c : Char) : Bool :=
  c = ' ' ∨ c = '\t' ∨ c = '\n' ∨ c = '\r'

/-- Decimal digit test for the JSON number grammar. -/
def isJsonDigit (c : Char) : Bool :=
  '0' ≤ c ∧ c ≤ '9'

/-- Drop leading JSON whitespace. -/
def skipWs : List Char → List Char
  | [] => []
  | c :: rest => if isJsonWs c then skipWs rest else c :: rest

/-- Does the list start with the given pattern?  (Python `str.startswith`.) -/
def listStartsWith : List Char → List Char → Bool
  | _, [] => true
  | [], _ :: _ => false
  | c :: cs, p :: ps => if c = p then listStartsWith cs ps else false

/-- Strip a literal from the front of the input, or fail. -/
def stripLit (lit : List Char) (cs : List Char) : Option (List Char) :=
  if listStartsWith cs lit then some (cs.drop lit.length) else none

/-- Value of one hexadecimal digit. -/
def hexDigitVal (c : Char) : Option Nat :=
  if '0' ≤ c ∧ c ≤ '9' then some (c.toNat - '0'.toNat)
  else if 'a' ≤ c ∧ c ≤ 'f' then some (c.toNat - 'a'.toNat + 10)
  else if 'A' ≤ c ∧ c ≤ 'F' then some (c.toNat - 'A'.toNat + 10)
  else none

/-- Read exactly four hex digits (the `\uXXXX` escape payload). -/
def hex4 : List Char → Option (Nat × List Char)
  | a :: b :: c :: d :: rest =>
    match hexDigitVal a, hexDigitVal b, hexDigitVal c, hexDigitVal d with
    | some x, some y, some z, some w => some (((x * 16 + y) * 16 + z) * 16 + w, rest)
    | _, _, _, _ => none
  | _ => none

/-- Body of a JSON string literal, after the opening quote.  Returns the
decoded characters and the remaining input.  Control characters must be
escaped; `\uXXXX` surrogate pairs are combined (a lone surrogate, which a
Python `str` can hold but a Lean `Char` cannot represent, is rejected). -/
def parseStringRest : Nat → List Char → Option (List Char × List Char)
  | 0, _ => none
  | fuel + 1, cs =>
    match cs with
    | [] => none
    | c :: rest =>
      if c = '"' then some ([], rest)
      else if c = '\\' then
        match rest with
        | [] => none
        | e :: rest2 =>
          let esc : Option (Char × List Char) :=
            if e = '"' then some ('"', rest2)
            else if e = '\\' then some ('\\', rest2)
            else if e = '/' then some ('/', rest2)
            else if e = 'b' then some ('\x08', rest2)
            else if e = 'f' then some ('\x0c', rest2)
            else if e = 'n' then some ('\n', rest2)
            else if e = 'r' then some ('\r', rest2)
            else if e = 't' then some ('\t', rest2)
            else if e = 'u' then
              match hex4 rest2 with
              | none => none
              | some (code, rest3) =>
                if 0xD800 ≤ code ∧ code ≤ 0xDBFF then
                  match rest3 with
                  | '\\' :: 'u' :: rest4 =>
                    match hex4 rest4 with
                    | some (lo, rest5) =>
                      if 0xDC00 ≤ lo ∧ lo ≤ 0xDFFF then
                        some (Char.ofNat (0x10000 + (code - 0xD800) * 0x400 + (lo - 0xDC00)), rest5)
                      else none
                    | none => none
                  | _ => none
                else if 0xDC00 ≤ code ∧ code ≤ 0xDFFF then none
                else some (Char.ofNat code, rest3)
            else none
          match esc with
          | none => none
          | some (ch, r2) =>
            match parseStringRest fuel r2 with
            | some (s, r3) => some (ch :: s, r3)
            | none => none
      else if c.toNat < 0x20 then none
      else
        match parseStringRest fuel rest with
        | some (s, r3) => some (c :: s, r3)
        | none => none

/-- Longest leading run of decimal digits, plus the rest. -/
def digitSpan : List Char → List Char × List Char
  | [] => ([], [])
  | c :: rest =>
    if isJsonDigit c then
      let (ds, r) := digitSpan rest
      (c :: ds, r)
    else ([], c :: rest)

/-- Optional fraction and exponent parts of a JSON number, appended to the
lexeme accumulated so far. -/
def parseFracExp (acc : List Char) (cs : List Char) : Option (List Char × List Char) :=
  let fr : Option (List Char × List Char) :=
    match cs with
    | '.' :: rest =>
      match digitSpan rest with
      | ([], _) => none
      | (ds, r) => some (acc ++ ('.' :: ds), r)
    | _ => some (acc, cs)
  match fr with
  | none => none
  | some (acc2, cs2) =>
    match cs2 with
    | c :: rest =>
      if c = 'e' ∨ c = 'E' then
        let (sgn, rest2) : List Char × List Char :=
          match rest with
          | '+' :: r => (['+'], r)
          | '-' :: r => (['-'], r)
          | _ => ([], rest)
        match digitSpan rest2 with
        | ([], _) => none
        | (ds, r) => some (acc2 ++ (c :: (sgn ++ ds)), r)
      else some (acc2, c :: rest)
    | [] => some (acc2, [])

/-- JSON number literal (RFC 8259 grammar, as enforced by `json.loads`):
optional minus, integer part with no leading zeros, optional fraction,
optional exponent.  Returns the lexeme and the remaining input. -/
def parseNumberLex (cs : List Char) : Option (List Char × List Char) :=
  let (sign, cs1) : List Char × List Char :=
    match cs with
    | '-' :: rest => (['-'], rest)
    | _ => ([], cs)
  match cs1 with
  | [] => none
  | c :: rest =>
    if c = '0' then parseFracExp (sign ++ ['0']) rest
    else if isJsonDigit c then
      let (ds, r) := digitSpan rest
      parseFracExp (sign ++ (c :: ds)) r
    else none

mutual

/-- One JSON value (leading whitespace allowed), per Python `json.loads`,
including its non-standard `NaN` / `Infinity` / `-Infinity` constants.
Fuel-indexed; `jsonLoads` supplies sufficient fuel. -/
def parseValue : Nat → List Char → Option (JsonV × List Char)
  | 0, _ => none
  | fuel + 1, cs =>
    match skipWs cs with
    | [] => none
    | c :: rest =>
      if c = '\x7b' then
        match skipWs rest with
        | '\x7d' :: r2 => some (.obj [], r2)
        | r2 => parseMembers fuel [] r2
      else if c = '[' then
        match skipWs rest with
        | ']' :: r2 => some (.arr [], r2)
        | r2 => parseElems fuel [] r2
      else if c = '"' then
        match parseStringRest (rest.length + 1) rest with
        | some (s, r2) => some (.str s, r2)
        | none => none
      else if c = 't' then (stripLit "rue".data rest).map (fun r2 => (.bool true, r2))
      else if c = 'f' then (stripLit "alse".data rest).map (fun r2 => (.bool false, r2))
      else if c = 'n' then (stripLit "ull".data rest).map (fun r2 => (.null, r2))
      else if c = 'N' then (stripLit "aN".data rest).map (fun r2 => (.num "NaN".data, r2))
      else if c = 'I' then (stripLit "nfinity".data rest).map (fun r2 => (.num "Infinity".data, r2))
      else if c = '-' ∧ listStartsWith rest "Infinity".data then
        some (.num "-Infinity".data, rest.drop 8)
      else if c = '-' ∨ isJsonDigit c then
        (parseNumberLex (c :: rest)).map (fun p => (.num p.1, p.2))
      else none

/-- Elements of a JSON array after the first has to be parsed (accumulator
holds earlier elements in reverse). -/
def parseElems : Nat → List JsonV → List Char → Option (JsonV × List Char)
  | 0, _, _ => none
  | fuel + 1, acc, cs =>
    match parseValue fuel cs with
    | none => none
    | some (v, r) =>
      match skipWs r with
      | ']' :: r2 => some (.arr (v :: acc).reverse, r2)
      | ',' :: r2 => parseElems fuel (v :: acc) r2
      | _ => none

/-- Members of a JSON object (accumulator holds earlier members in
reverse).  Keys must be string literals. -/
def parseMembers : Nat → List (List Char × JsonV) → List Char → Option (JsonV × List Char)
  | 0, _, _ => none
  | fuel + 1, acc, cs =>
    match skipWs cs with
    | '"' :: rest =>
      match parseStringRest (rest.length + 1) rest with
      | none => none
      | some (k, r1) =>
        match skipWs r1 with
        | ':' :: r2 =>
          match parseValue fuel r2 with
          | none => none
          | some (v, r3) =>
            match skipWs r3 with
            | '\x7d' :: r4 => some (.obj ((k, v) :: acc).reverse, r4)
            | ',' :: r4 => parseMembers fuel ((k, v) :: acc) r4
            | _ => none
        | _ => none
    | _ => none

end

/-- Model of Python `json.loads`: parse one value, then require only
whitespace to remain (otherwise `json.loads` raises "Extra data" and the
caller sees a failure). -/
def jsonLoads (s : List Char) : Option JsonV :=
  match parseValue (2 * s.length + 4) s with
  | some (v, rest) => if skipWs rest = [] then some v else none
  | none => none

/-! ## Python string primitives used by the script -/

/-- Index of the first occurrence of a character, if any. -/
def firstIdx (c : Char) : List Char → Option Nat
  | [] => none
  | x :: xs => if x = c then some 0 else (firstIdx c xs).map (· + 1)

/-- Python `str.find` for a single-character needle: first index, or `-1`. -/
def pyFind (s : List Char) (c : Char) : Int :=
  match firstIdx c s with
  | some i => (i : Int)
  | none => -1

/-- Index of the last occurrence of a character, if any. -/
def lastIdx (c : Char) (s : List Char) : Option Nat :=
  (firstIdx c s.reverse).map (fun i => s.length - 1 - i)

/-- Python `str.rfind` for a single-character needle: last index, or `-1`. -/
def pyRFind (s : List Char) (c : Char) : Int :=
  match lastIdx c s with
  | some i => (i : Int)
  | none => -1

/-- Python slicing `s[a:b]` with possibly negative endpoints: a negative
endpoint counts from the end, and both are clamped to `[0, len(s)]`. -/
def pySlice (s : List Char) (a b : Int) : List Char :=
  let n : Int := (s.length : Int)
  let a2 : Int := if a < 0 then max (n + a) 0 else min a n
  let b2 : Int := if b < 0 then max (n + b) 0 else min b n
  (s.take b2.toNat).drop a2.toNat

/-- Characters removed by Python `str.strip()` with no argument (ASCII
whitespace; the exotic Unicode space classes never occur here). -/
def isPyWs (c : Char) : Bool :=
  c = ' ' ∨ c = '\t' ∨ c = '\n' ∨ c = '\r' ∨ c = '\x0b' ∨ c = '\x0c'

/-- Python `str.strip()`: drop whitespace from both ends. -/
def pyStrip (s : List Char) : List Char :=
  ((s.dropWhile isPyWs).reverse.dropWhile isPyWs).reverse

/-- Python `str.lower()` (ASCII case mapping, which covers every character
the script compares). -/
def pyLower (s : List Char) : List Char :=
  s.map Char.toLower

/-- Python substring test `pat in s`. -/
def containsSub (s pat : List Char) : Bool :=
  if listStartsWith s pat then true
  else
    match s with
    | [] => false
    | _ :: rest => containsSub rest pat

/-- Fuelled worker for `pyReplace` (left-to-right, non-overlapping). -/
def replaceFuel (old new : List Char) : Nat → List Char → List Char
  | 0, s => s
  | fuel + 1, s =>
    if listStartsWith s old then new ++ replaceFuel old new fuel (s.drop old.length)
    else
      match s with
      | [] => []
      | c :: rest => c :: replaceFuel old new fuel rest

/-- Python `str.replace(old, new)`: replace every non-overlapping occurrence
left to right; an empty `old` inserts `new` around every character. -/
def pyReplace (s old new : List Char) : List Char :=
  if old = [] then new ++ s.flatMap (fun c => c :: new)
  else replaceFuel old new s.length s

/-! ## Generation client (`ask_gemini`) -/

/-- Look a key up in a JSON object's field list the way a Python dict built
by `json.loads` would: a duplicated key keeps the last value. -/
def lastLookup (k : List Char) : List (List Char × JsonV) → Option JsonV
  | [] => none
  | (k2, v) :: rest =>
    match lastLookup k rest with
    | some r => some r
    | none => if k2 = k then some v else none

/-- Subscripting a JSON value with a string key (`v["k"]`); anything that
would raise `KeyError`/`TypeError` in Python becomes `none`. -/
def jGet (v : JsonV) (k : List Char) : Option JsonV :=
  match v with
  | .obj fs => lastLookup k fs
  | _ => none

/-- Subscripting a JSON value with an integer index (`v[i]`); anything that
would raise `IndexError`/`KeyError`/`TypeError` in Python becomes `none`. -/
def jIdx (v : JsonV) (i : Nat) : Option JsonV :=
  match v with
  | .arr xs => xs.get? i
  | _ => none

/-- Outcome of the `requests.post` call: either a raised network error, or a
response with a status code and a body that may or may not be JSON
(`res.json()` raises on a non-JSON body). -/
inductive HttpResult where
  | netError
  | resp (status : Nat) (body : Option JsonV)

/-- The field navigation `res.json()["candidates"][0]["content"]["parts"][0]["text"]`,
which must finally produce a string for `.find` to work; every exception
along the way is caught by `ask_gemini`'s `except` and becomes `none`. -/
def navChain (b : JsonV) : Option (List Char) :=
  (jGet b "candidates".data).bind fun cands =>
  (jIdx cands 0).bind fun c0 =>
  (jGet c0 "content".data).bind fun content =>
  (jGet content "parts".data).bind fun parts =>
  (jIdx parts 0).bind fun p0 =>
  (jGet p0 "text".data).bind fun t =>
  match t with
  | .str s => some s
  | _ => none

/-- The bracket extraction of `ask_gemini`:
`json.loads(reply[reply.find("["):reply.rfind("]") + 1])`, with a parse
failure collapsing to `none`. -/
def extractJsonArr (reply : List Char) : Option JsonV :=
  jsonLoads (pySlice reply (pyFind reply '[') (pyRFind reply ']' + 1))

/-- `ask_gemini`, as a function of the HTTP outcome: `raise_for_status`
raises on 4xx/5xx, then the reply text is navigated out of the body and the
first-`[`-to-last-`]` substring is parsed; every exception anywhere in the
`try` block is caught and returned as `None`. -/
def ask_gemini (r : HttpResult) : Option JsonV :=
  match r with
  | .netError => none
  | .resp status body =>
    if 400 ≤ status ∧ status < 600 then none
    else
      match body with
      | none => none
      | some b =>
        match navChain b with
        | none => none
        | some reply => extractJsonArr reply

/-! ## Poll dispatcher (`send_polls`) -/

/-- The outbound platform operations the script performs, recorded as a
trace.  `replyMessage` is `message.reply_text`, `sendMessage` is
`bot.send_message`; the pacing `asyncio.sleep` calls are kept so the trace
mirrors the dispatch sequence exactly. -/
inductive BotAction where
  | sendMessage (text : List Char)
  | replyMessage (text : List Char)
  | pinMessage
  | sendPoll (question : List Char) (options : List JsonV) (correctIdx : Nat)
  | sleep (secs : Nat)

/-- Characters escaped by `telegram.helpers.escape_markdown(..., version=2)`. -/
def md2Specials : List Char := "_*[]()~`>#+-=|\x7b\x7d.!".data

/-- `telegram.helpers.escape_markdown(text, version=2)`: prefix every
MarkdownV2 special character with a backslash. -/
def escape_markdown_v2 (t : List Char) : List Char :=
  t.flatMap (fun c => if c ∈ md2Specials then ['\\', c] else [c])

/-- The `letter_to_index` dict literal of `send_polls`. -/
def letter_to_index (l : List Char) : Option Nat :=
  if l = "a".data then some 0
  else if l = "b".data then some 1
  else if l = "c".data then some 2
  else if l = "d".data then some 3
  else none

/-- Python dict `.get(k, default)` on the question record: returns the value
(or the default) together with the record, which a `.get` never mutates. -/
def dict_get (fs : List (List Char × JsonV)) (k : List Char) (d : JsonV) :
    JsonV × List (List Char × JsonV) :=
  ((lastLookup k fs).getD d, fs)

mutual

/-- Python `repr` of a JSON-shaped value (which is also `str` for every
non-string case the script can meet).  Quote-escaping inside reprs of
strings, which the script never relies on, is not reproduced. -/
def pyRepr : JsonV → List Char
  | .null => "None".data
  | .bool true => "True".data
  | .bool false => "False".data
  | .num lex => lex
  | .str s => '\'' :: (s ++ ['\''])
  | .arr xs => '[' :: (pyReprItems xs ++ [']'])
  | .obj fs => '\x7b' :: (pyReprFields fs ++ ['\x7d'])

/-- Comma-separated reprs of list items. -/
def pyReprItems : List JsonV → List Char
  | [] => []
  | [v] => pyRepr v
  | v :: w :: rest => pyRepr v ++ (',' :: ' ' :: pyReprItems (w :: rest))

/-- Comma-separated `'key': value` reprs of dict entries. -/
def pyReprFields : List (List Char × JsonV) → List Char
  | [] => []
  | [(k, v)] => ('\'' :: (k ++ ['\''])) ++ (':' :: ' ' :: pyRepr v)
  | (k, v) :: f :: rest =>
    ('\'' :: (k ++ ['\''])) ++ (':' :: ' ' :: pyRepr v) ++ (',' :: ' ' :: pyReprFields (f :: rest))

end

/-- Python `str()` applied to a JSON-shaped value (used by the f-string that
builds the question text). -/
def pyStr (v : JsonV) : List Char :=
  match v with
  | .str s => s
  | v => pyRepr v

/-- The body of the `send_polls` loop for question number `i` (1-based) and
question record `q`.  Returns the emitted actions, whether the body ran to
completion (an uncaught Python exception — a `.get` on a non-dict, or
`.strip()` / `escape_markdown` on a non-string — stops it early), and the
question record as it stands afterwards.  Statement order follows the
source: choice/explanation/keywords/answer lookups, index computation,
question message, pin, poll, hint message, explanation message, with the
`asyncio.sleep` pacing in between. -/
def sendPollsBody (i : Nat) (q : JsonV) : List BotAction × Bool × JsonV :=
  match q with
  | .obj fs0 =>
    let (va, fs1) := dict_get fs0 "a".data (.str [])
    let (vb, fs2) := dict_get fs1 "b".data (.str [])
    let (vc, fs3) := dict_get fs2 "c".data (.str [])
    let (vd, fs4) := dict_get fs3 "d".data (.str [])
    let options := [va, vb, vc, vd]
    let (explanationV, fs5) := dict_get fs4 "explanation".data (.str [])
    let (keywordsV, fs6) := dict_get fs5 "keywords".data (.str [])
    let (answerV, fs7) := dict_get fs6 "answer".data (.str [])
    match answerV with
    | .str aRaw =>
      let correct_letter := pyLower (pyStrip aRaw)
      let correct_index := (letter_to_index correct_letter).getD 0
      let (questionV, fs8) := dict_get fs7 "question".data (.str [])
      let question_text :=
        "🔹 Question no. ".data ++ (Nat.repr i).data ++ ('\n' :: pyStr questionV)
      let bold_question := '*' :: (escape_markdown_v2 question_text ++ ['*'])
      let acts1 : List BotAction :=
        [.sendMessage bold_question, .sleep 2, .pinMessage, .sleep 2,
         .sendPoll "🔹".data options correct_index, .sleep 2]
      match keywordsV with
      | .str ks =>
        let spoiler_keyword :=
          escape_markdown_v2 "Hint : ".data ++ (" ||".data ++ (escape_markdown_v2 ks ++ "||".data))
        let acts2 := acts1 ++ [.sendMessage spoiler_keyword, .sleep 2]
        match explanationV with
        | .str es =>
          let spoiler_explanation :=
            escape_markdown_v2 "🔹Explanation: ".data ++
              (" ||".data ++ (escape_markdown_v2 es ++ "||".data))
          (acts2 ++ [.sendMessage spoiler_explanation, .sleep 3], true, .obj fs8)
        | _ => (acts2, false, .obj fs8)
      | _ => (acts1, false, .obj fs8)
    | _ => ([], false, .obj fs7)
  | _ => ([], false, q)

/-- The `for i, q in enumerate(quiz_data, start=1)` loop: actions of every
question in order; an exception in one body aborts the rest.  The third
component carries the item list as it stands after the loop. -/
def sendPollsAux : Nat → List JsonV → List BotAction × Bool × List JsonV
  | _, [] => ([], true, [])
  | i, q :: rest =>
    let (acts, ok, q2) := sendPollsBody i q
    if ok then
      let (acts2, ok2, rest2) := sendPollsAux (i + 1) rest
      (acts ++ acts2, ok2, q2 :: rest2)
    else (acts, false, q2 :: rest)

/-- Items produced by Python iteration over a JSON-shaped value: a list
yields its elements, a string its characters, a dict its keys (first
occurrence order); anything else raises `TypeError`. -/
def dedupKeysAux (seen : List (List Char)) : List (List Char × JsonV) → List (List Char)
  | [] => []
  | (k, _) :: rest =>
    if k ∈ seen then dedupKeysAux seen rest else k :: dedupKeysAux (k :: seen) rest

/-- Python `iter` over the `quiz_data` argument. -/
def pyIter (v : JsonV) : Option (List JsonV) :=
  match v with
  | .arr xs => some xs
  | .str s => some (s.map (fun c => JsonV.str [c]))
  | .obj fs => some ((dedupKeysAux [] fs).map (fun k => JsonV.str k))
  | _ => none

/-- `send_polls(bot, chat_id, quiz_data, thread_id)`: iterate the quiz data
and dispatch each question.  Returns the action trace, whether the loop
completed without an exception, and the quiz data as it stands after the
dispatch. -/
def send_polls (quizData : JsonV) : List BotAction × Bool × JsonV :=
  match pyIter quizData with
  | none => ([], false, quizData)
  | some items =>
    let (acts, ok, items2) := sendPollsAux 1 items
    (acts, ok,
      match quizData with
      | .arr _ => .arr items2
      | other => other)

/-! ## Conversation controller -/

/-- `build_mcq_prompt(topic)`: the instruction string with the topic
embedded verbatim. -/
def build_mcq_prompt (topic : List Char) : List Char :=
  "You are a Philippine LET (Licensure Examination for Teachers) reviewer assistant. Generate 20 multiple choice questions for the topic: '".data ++
  topic ++
  ("'.\n".data ++
   "Each question object must include:\n".data ++
   "- 'question': the question text (max 280 characters)\n".data ++
   "- 'a', 'b', 'c', 'd': answer choices (max 100 characters total per choice)\n".data ++
   "- 'answer': correct letter (a/b/c/d)\n".data ++
   "- 'keywords': 3–6 short keywords or hints (comma-separated) that summarize the main concepts in the question \n".data ++
   "   • (useful for quick recall during review)\n".data ++
   "- 'explanation': a clear 2–3 sentence explanation that:\n".data ++
   "   • States why the correct answer is correct\n".data ++
   "   • Mentions relevant subtopics or concepts\n".data ++
   "   • Includes any important theory, law, or rule related to the topic\n".data ++
   "Return only a JSON array, like this example:\n".data ++
   "[\n".data ++
   "  \x7b\n".data ++
   "    \"question\": \"...\",\n".data ++
   "    \"a\": \"...\",\n".data ++
   "    \"b\": \"...\",\n".data ++
   "    \"c\": \"...\",\n".data ++
   "    \"d\": \"...\",\n".data ++
   "    \"answer\": \"a\",\n".data ++
   "    \"keywords\": \",\n".data ++
   "    \"explanation\": \"Short but informative reason referencing related theory or subtopic.\"\n".data ++
   "  \x7d\n".data ++
   "]".data)

/-- `ConversationHandler.END`. -/
def conversationEnd : Int := -1

/-- Python truthiness of a float literal: zero iff every mantissa digit is
zero (`NaN` and the infinities are truthy). -/
def numIsZero (lex : List Char) : Bool :=
  if lex = "NaN".data ∨ lex = "Infinity".data ∨ lex = "-Infinity".data then false
  else ((lex.takeWhile (fun c => c ≠ 'e' ∧ c ≠ 'E')).filter isJsonDigit).all (· = '0')

/-- Python truthiness of a JSON-shaped value. -/
def pyTruthy (v : JsonV) : Bool :=
  match v with
  | .null => false
  | .bool b => b
  | .num lex => !(numIsZero lex)
  | .str s => !s.isEmpty
  | .arr xs => !xs.isEmpty
  | .obj fs => !fs.isEmpty

/-- Truthiness of `raw_mcqs` (`None` is falsy). -/
def pyTruthyOpt : Option JsonV → Bool
  | none => false
  | some v => pyTruthy v

/-- The topic-selection front half of `handle_topic`: strip the text; in a
group or supergroup require the bot's mention in the lowercased text
(`none` = the silent early `return`), then delete the mention's exact
(lowercase) spelling and strip again. -/
def topicFor (bot_username ct text : List Char) : Option (List Char) :=
  let userInput := pyStrip text
  if ct = "group".data ∨ ct = "supergroup".data then
    if containsSub (pyLower userInput) ('@' :: bot_username) = false then none
    else some (pyStrip (pyReplace userInput ('@' :: bot_username) []))
  else some userInput

/-- `handle_topic`, parameterised by the HTTP oracle (what the network
returns for a given request prompt).  Returns the outbound-action trace and
the handler's return value (`some conversationEnd` for
`ConversationHandler.END`, `none` for the bare `return` and for an uncaught
dispatch exception). -/
def handle_topic (bot_username ct text : List Char) (oracle : List Char → HttpResult) :
    List BotAction × Option Int :=
  match topicFor bot_username ct text with
  | none => ([], none)
  | some topic =>
    let waitMsg := BotAction.replyMessage
      ("⏳ Generating 20 LET MCQs for topic: *".data ++ (topic ++ "*".data))
    let raw := ask_gemini (oracle (build_mcq_prompt topic))
    if pyTruthyOpt raw = false then
      ([waitMsg, .replyMessage "❌ Gemini failed to generate questions.".data],
       some conversationEnd)
    else
      match raw with
      | some quizData =>
        let (acts, ok, _) := send_polls quizData
        if ok then
          (waitMsg :: (acts ++ [.replyMessage "✅ Quiz complete!".data]), some conversationEnd)
        else (waitMsg :: acts, none)
      | none => ([waitMsg], none)

/-- The idle-state `fallback` handler: in a group or supergroup a text
without the bot's mention is silently ignored; otherwise the reminder
message is sent and the conversation ends. -/
def fallback (bot_username ct text : List Char) : List BotAction × Option Int :=
  let userInput := pyStrip text
  if (ct = "group".data ∨ ct = "supergroup".data) ∧
      containsSub (pyLower userInput) ('@' :: bot_username) = false then
    ([], none)
  else
    ([.sendMessage "Please use /start to begin.".data], some conversationEnd)

/-- The `correct_option_id` values of the polls in a trace, in order. -/
def pollCorrectIds (acts : List BotAction) : List Nat :=
  acts.filterMap (fun a =>
    match a with
    | .sendPoll _ _ k => some k
    | _ => none)

/-- Concrete generation reply used by the end-to-end scenario: a two-question
quiz array (answers `b` and `d`) embedded in prose. -/
def c8ReplyText : List Char :=
  "Here you go!\n".data ++
  ("[\x7b\"question\": \"Q1\", \"a\": \"A1\", \"b\": \"B1\", \"c\": \"C1\", \"d\": \"D1\", \"answer\": \"b\", \"keywords\": \"k1\", \"explanation\": \"e1\"\x7d, \x7b\"question\": \"Q2\", \"a\": \"A2\", \"b\": \"B2\", \"c\": \"C2\", \"d\": \"D2\", \"answer\": \"d\", \"keywords\": \"k2\", \"explanation\": \"e2\"\x7d]".data ++
  "\nEnjoy.".data)

/-- A well-formed generation-endpoint response body carrying `c8ReplyText`. -/
def c8Body : JsonV :=
  .obj [("candidates".data,
    .arr [.obj [("content".data,
      .obj [("parts".data, .arr [.obj [("text".data, .str c8ReplyText)]])])]])]

/-- HTTP oracle for the end-to-end scenario: every request succeeds with
`c8Body`. -/
def c8Oracle : List Char → HttpResult := fun _ => .resp 200 (some c8Body)

/-- HTTP oracle for the mention-stripping counterexample: the quiz is served
only for the prompt built from the properly cleaned topic `"math"`; any
other request fails. -/
def c6Oracle : List Char → HttpResult := fun p =>
  if p = build_mcq_prompt "math".data then .resp 200 (some c8Body) else .netError

/-- Response body whose reply text carries the empty JSON array (used to
witness the empty-quiz behaviour). -/
def c9Body : JsonV :=
  .obj [("candidates".data,
    .arr [.obj [("content".data,
      .obj [("parts".data, .arr [.obj [("text".data, .str "ok [] done".data)]])])]])]

/-! ## Helper lemmas -/

/-- The dispatch loop body always emits exactly one poll when the answer
value is a string (present or defaulted), and its correct index comes from
the `letter_to_index` lookup with default `0`. -/
lemma pollCorrectIds_sendPollsBody (fs : List (List Char × JsonV)) (i : Nat) (s : List Char)
    (h : (lastLookup "answer".data fs).getD (.str []) = .str s) :
    pollCorrectIds (sendPollsBody i (.obj fs)).1
      = [(letter_to_index (pyLower (pyStrip s))).getD 0] := by
  simp only [sendPollsBody, dict_get, h]
  split
  all_goals try split
  all_goals simp [pollCorrectIds]

/-- The dispatch loop body returns the question record it was given. -/
lemma sendPollsBody_state (i : Nat) (q : JsonV) : (sendPollsBody i q).2.2 = q := by
  cases q
  case obj fields =>
    simp only [sendPollsBody, dict_get]
    split
    all_goals try split
    all_goals try split
    all_goals rfl
  all_goals rfl

/-- The dispatch loop returns the item list it was given. -/
lemma sendPollsAux_state (i : Nat) (items : List JsonV) :
    (sendPollsAux i items).2.2 = items := by
  induction items generalizing i with
  | nil => rfl
  | cons q rest ih =>
    simp only [sendPollsAux]
    have hq := sendPollsBody_state i q
    split <;> simp_all

/-! ## Claims -/

/-- C5: For every topic string T, the string returned by the prompt builder
contains T verbatim as a substring. -/
theorem c5_prompt_contains_topic (topic : List Char) :
    ∃ pre post, build_mcq_prompt topic = pre ++ (topic ++ post) := by
  unfold build_mcq_prompt
  exact ⟨_, _, List.append_assoc _ _ _⟩

/-- C3: For every question whose `answer` field is a letter in `{a,b,c,d}`
after stripping and lowercasing, the dispatcher sends the poll with
`correct_option_id` equal to the corresponding zero-based index:
a ↦ 0, b ↦ 1, c ↦ 2, d ↦ 3. -/
theorem c3_answer_letter_to_index (fs : List (List Char × JsonV)) (i : Nat) (s : List Char)
    (h : lastLookup "answer".data fs = some (.str s)) :
    (pyLower (pyStrip s) = "a".data →
        pollCorrectIds (sendPollsBody i (.obj fs)).1 = [0]) ∧
    (pyLower (pyStrip s) = "b".data →
        pollCorrectIds (sendPollsBody i (.obj fs)).1 = [1]) ∧
    (pyLower (pyStrip s) = "c".data →
        pollCorrectIds (sendPollsBody i (.obj fs)).1 = [2]) ∧
    (pyLower (pyStrip s) = "d".data →
        pollCorrectIds (sendPollsBody i (.obj fs)).1 = [3]) := by
  have hbase := pollCorrectIds_sendPollsBody fs i s (by rw [h]; rfl)
  refine ⟨fun hl => ?_, fun hl => ?_, fun hl => ?_, fun hl => ?_⟩ <;>
    rw [hbase, hl] <;> rfl

/-- C3 witness: a question answering `" B "` (stripped and lowercased to
`b`) yields a poll whose correct option index is 1. -/
theorem c3_answer_letter_to_index_witness :
    pollCorrectIds (sendPollsBody 1 (.obj [("answer".data, .str " B ".data)])).1 = [1] :=
  (c3_answer_letter_to_index [("answer".data, .str " B ".data)] 1 " B ".data rfl).2.1 rfl

/-- C4: For every question whose `answer` value is absent, or (after
stripping and lowercasing) is a string other than `a`, `b`, `c`, `d`, the
dispatcher still sends the poll and selects option index 0 as the correct
choice instead of raising an error or rejecting the question. -/
theorem c4_missing_answer_defaults_to_zero (fs : List (List Char × JsonV)) (i : Nat)
    (h : lastLookup "answer".data fs = none ∨
      ∃ s, lastLookup "answer".data fs = some (.str s) ∧
        pyLower (pyStrip s) ≠ "a".data ∧ pyLower (pyStrip s) ≠ "b".data ∧
        pyLower (pyStrip s) ≠ "c".data ∧ pyLower (pyStrip s) ≠ "d".data) :
    pollCorrectIds (sendPollsBody i (.obj fs)).1 = [0] := by
  rcases h with h | ⟨s, h, ha, hb, hc, hd⟩
  · rw [pollCorrectIds_sendPollsBody fs i [] (by rw [h]; rfl)]
    rfl
  · rw [pollCorrectIds_sendPollsBody fs i s (by rw [h]; rfl)]
    rw [letter_to_index, if_neg ha, if_neg hb, if_neg hc, if_neg hd]
    rfl

/-- C4 witness: a question with no `answer` key at all still produces a poll
with correct option index 0. -/
theorem c4_missing_answer_defaults_to_zero_witness :
    pollCorrectIds (sendPollsBody 1 (.obj [("question".data, .str "Q".data)])).1 = [0] :=
  c4_missing_answer_defaults_to_zero [("question".data, .str "Q".data)] 1 (Or.inl rfl)

/-- C10: Dispatching a quiz leaves the quiz data unchanged: `send_polls`
performs only non-mutating reads, so the question list and every question
record in it come back exactly as they went in. -/
theorem c10_send_polls_preserves_quiz (quizData : JsonV) :
    (send_polls quizData).2.2 = quizData := by
  cases quizData <;> simp [send_polls, pyIter, sendPollsAux_state]

/-- C7: In a group or supergroup chat, a text message that does not contain
the bot's mention string produces no outbound action at all, both while
awaiting a topic (`handle_topic`) and while idle (`fallback`). -/
theorem c7_group_without_mention_is_silent (bot_username ct text : List Char)
    (oracle : List Char → HttpResult)
    (hg : ct = "group".data ∨ ct = "supergroup".data)
    (hm : containsSub (pyLower (pyStrip text)) ('@' :: bot_username) = false) :
    (handle_topic bot_username ct text oracle).1 = [] ∧
    (fallback bot_username ct text).1 = [] := by
  constructor
  · simp only [handle_topic, topicFor, if_pos hg, if_pos hm]
  · simp only [fallback, if_pos (And.intro hg hm)]

/-- C7 witness: a group message `"hello"` with no `@quizbot` mention yields
an empty trace from both handlers. -/
theorem c7_group_without_mention_is_silent_witness :
    (handle_topic "quizbot".data "group".data "hello".data (fun _ => .netError)).1 = [] ∧
    (fallback "quizbot".data "group".data "hello".data).1 = [] :=
  c7_group_without_mention_is_silent "quizbot".data "group".data "hello".data
    (fun _ => .netError) (Or.inl rfl) rfl

/-- C9: When the generation client returns a well-formed but empty array,
the controller behaves exactly as on a generation failure: the same generic
failure message, the conversation ends, and no polls are dispatched — the
two outcomes are indistinguishable at the public interface. -/
theorem c9_empty_quiz_like_failure (bot_username ct text topic : List Char)
    (o1 o2 : List Char → HttpResult)
    (ht : topicFor bot_username ct text = some topic)
    (h1 : ask_gemini (o1 (build_mcq_prompt topic)) = some (.arr []))
    (h2 : ask_gemini (o2 (build_mcq_prompt topic)) = none) :
    handle_topic bot_username ct text o1 = handle_topic bot_username ct text o2 ∧
    (handle_topic bot_username ct text o1).1 =
      [.replyMessage ("⏳ Generating 20 LET MCQs for topic: *".data ++ (topic ++ "*".data)),
       .replyMessage "❌ Gemini failed to generate questions.".data] ∧
    (handle_topic bot_username ct text o1).2 = some conversationEnd := by
  simp [handle_topic, ht, h1, h2, pyTruthyOpt, pyTruthy]

/-- C9 witness: a private-chat request whose generation reply is the empty
array `[]` produces the same trace as one whose network call fails. -/
theorem c9_empty_quiz_like_failure_witness :
    handle_topic "quizbot".data "private".data "math".data (fun _ => .resp 200 (some c9Body))
      = handle_topic "quizbot".data "private".data "math".data (fun _ => .netError) :=
  (c9_empty_quiz_like_failure "quizbot".data "private".data "math".data "math".data
    (fun _ => .resp 200 (some c9Body)) (fun _ => .netError) rfl rfl rfl).1

set_option maxRecDepth 40000 in
/-- C8: End-to-end scenario: for the topic `"Child Development"` and a
generation response carrying two questions with choices a–d, answer `b` for
question 1 and `d` for question 2, the dispatcher emits, in order, the
question-1 message then its poll with correct index 1, then the question-2
message then its poll with correct index 3, after which the controller sends
the completion message and ends the conversation (the pin, hint and
explanation steps of each question appear in between, per the dispatch
sequence). -/
theorem c8_end_to_end_two_questions :
    handle_topic "quizbot".data "private".data "Child Development".data c8Oracle =
      ([.replyMessage "⏳ Generating 20 LET MCQs for topic: *Child Development*".data,
        .sendMessage "*🔹 Question no\\. 1\nQ1*".data,
        .sleep 2, .pinMessage, .sleep 2,
        .sendPoll "🔹".data
          [.str "A1".data, .str "B1".data, .str "C1".data, .str "D1".data] 1,
        .sleep 2,
        .sendMessage "Hint :  ||k1||".data,
        .sleep 2,
        .sendMessage "🔹Explanation:  ||e1||".data,
        .sleep 3,
        .sendMessage "*🔹 Question no\\. 2\nQ2*".data,
        .sleep 2, .pinMessage, .sleep 2,
        .sendPoll "🔹".data
          [.str "A2".data, .str "B2".data, .str "C2".data, .str "D2".data] 3,
        .sleep 2,
        .sendMessage "Hint :  ||k2||".data,
        .sleep 2,
        .sendMessage "🔹Explanation:  ||e2||".data,
        .sleep 3,
        .replyMessage "✅ Quiz complete!".data],
       some conversationEnd) := rfl

set_option maxRecDepth 40000 in
/-- C6 counterexample: the mention check lowercases the text, but the
removal `replace` does not, so a differently-cased mention passes the check
yet is NOT removed from the topic.  With bot handle `quizbot` and group
message `"@QuizBot math"`, the mention check passes, yet the topic that
reaches the prompt (visible in the progress message) is still
`"@QuizBot math"`, and the generation keyed to the prompt for the cleaned
topic `"math"` is never requested. -/
theorem c6_mention_stripping_cex :
    containsSub (pyLower (pyStrip "@QuizBot math".data)) ('@' :: "quizbot".data) = true ∧
    (handle_topic "quizbot".data "group".data "@QuizBot math".data c6Oracle).1 =
      [.replyMessage "⏳ Generating 20 LET MCQs for topic: *@QuizBot math*".data,
       .replyMessage "❌ Gemini failed to generate questions.".data] :=
  ⟨rfl, rfl⟩

/-- C6 (amended): for every group or supergroup message that passes the
mention check, the topic used for the progress message and the generation
prompt is the stripped text with every occurrence of the handle's exact
(lowercase) spelling removed; a mention appearing only in a different casing
passes the check but is left in the topic. -/
theorem c6_mention_stripping_amended (bot_username ct text : List Char)
    (oracle : List Char → HttpResult)
    (hg : ct = "group".data ∨ ct = "supergroup".data)
    (hm : containsSub (pyLower (pyStrip text)) ('@' :: bot_username) = true) :
    topicFor bot_username ct text
      = some (pyStrip (pyReplace (pyStrip text) ('@' :: bot_username) [])) ∧
    (handle_topic bot_username ct text oracle).1.head?
      = some (.replyMessage ("⏳ Generating 20 LET MCQs for topic: *".data ++
          (pyStrip (pyReplace (pyStrip text) ('@' :: bot_username) []) ++ "*".data))) := by
  have ht : topicFor bot_username ct text
      = some (pyStrip (pyReplace (pyStrip text) ('@' :: bot_username) [])) := by
    simp only [topicFor, if_pos hg, hm]
    rfl
  refine ⟨ht, ?_⟩
  simp only [handle_topic, ht]
  split
  · rfl
  · split
    · split <;> rfl
    · rfl

/-- C6 amended witness: in a group, `" @quizbot  math "` passes the mention
check and the topic becomes `"math"`. -/
theorem c6_mention_stripping_amended_witness :
    topicFor "quizbot".data "group".data " @quizbot  math ".data = some "math".data ∧
    (handle_topic "quizbot".data "group".data " @quizbot  math ".data
        (fun _ => .netError)).1.head?
      = some (.replyMessage "⏳ Generating 20 LET MCQs for topic: *math*".data) :=
  c6_mention_stripping_amended "quizbot".data "group".data " @quizbot  math ".data
    (fun _ => .netError) (Or.inl rfl) rfl

/-! ## Index lemmas for the bracket extraction -/

lemma firstIdx_get (c : Char) :
    ∀ {s : List Char} {i : Nat}, firstIdx c s = some i → s[i]? = some c := by
  intro s
  induction s with
  | nil => intro i h; simp [firstIdx] at h
  | cons x xs ih =>
    intro i h
    simp only [firstIdx] at h
    by_cases hx : x = c
    · rw [if_pos hx] at h
      cases h
      simpa using hx
    · rw [if_neg hx] at h
      rcases Option.map_eq_some'.mp h with ⟨j, hj, rfl⟩
      simpa using ih hj

lemma firstIdx_lt (c : Char) {s : List Char} {i : Nat} (h : firstIdx c s = some i) :
    i < s.length := by
  by_contra hle
  have := firstIdx_get c h
  rw [List.getElem?_eq_none (Nat.le_of_not_lt hle)] at this
  exact Option.noConfusion this

lemma lastIdx_get {c : Char} {s : List Char} {r : Nat} (h : lastIdx c s = some r) :
    s[r]? = some c ∧ r < s.length := by
  rcases Option.map_eq_some'.mp h with ⟨j, hj, rfl⟩
  have hjlt : j < s.length := by simpa using firstIdx_lt c hj
  have hget := firstIdx_get c hj
  rw [List.getElem?_reverse (by simpa using hjlt)] at hget
  exact ⟨hget, by omega⟩

lemma drop_last_rbracket {t : List Char} {r : Nat}
    (h : t[r]? = some ']') (hr : r + 1 = t.length) :
    t.drop r = [']'] := by
  induction t generalizing r with
  | nil => simp at h
  | cons x xs ih =>
    cases r with
    | zero =>
      cases xs with
      | nil =>
        simp at h
        rw [List.drop_zero, h]
      | cons y ys =>
        simp at hr
    | succ n =>
      simp only [List.getElem?_cons_succ] at h
      simp only [List.length_cons] at hr
      simp only [List.drop_succ_cons]
      exact ih h (by omega)

lemma firstIdx_append_of_not_mem (c : Char) {l1 : List Char} (l2 : List Char)
    (h : c ∉ l1) :
    firstIdx c (l1 ++ l2) = (firstIdx c l2).map (· + l1.length) := by
  induction l1 with
  | nil =>
    simp only [List.nil_append, List.length_nil]
    cases h2 : firstIdx c l2 <;> simp [h2]
  | cons x xs ih =>
    have hx : ¬ x = c := by
      intro hxc
      exact h (by simp [hxc])
    have hmem : c ∉ xs := fun hc => h (List.mem_cons_of_mem _ hc)
    simp only [List.cons_append, firstIdx, if_neg hx, List.append_eq]
    rw [ih hmem]
    cases h2 : firstIdx c l2
    · simp [h2]
    · simp [h2]
      omega

lemma pySlice_b_zero (t : List Char) (a : Int) : pySlice t a 0 = [] := by
  have h0 : ¬ ((0 : Int) < 0) := by omega
  have hmin : min (0 : Int) (t.length : Int) = 0 := by omega
  simp [pySlice, h0, hmin]

lemma pySlice_nat_of_le (t : List Char) (a b : Nat) (hba : b ≤ a) :
    pySlice t (a : Int) (b : Int) = [] := by
  have ha : ¬ ((a : Int) < 0) := by omega
  have hb : ¬ ((b : Int) < 0) := by omega
  have hma : min ((a : Int)) (t.length : Int) = ((min a t.length : Nat) : Int) := by omega
  have hmb : min ((b : Int)) (t.length : Int) = ((min b t.length : Nat) : Int) := by omega
  simp only [pySlice, if_neg ha, if_neg hb, hma, hmb, Int.toNat_natCast]
  apply List.drop_eq_nil_of_le
  simp only [List.length_take]
  omega

lemma pySlice_neg_one (t : List Char) (e : Nat) :
    pySlice t (-1) (e : Int) = (t.take (min e t.length)).drop (t.length - 1) := by
  have ha : ((-1 : Int) < 0) := by omega
  have hb : ¬ ((e : Int) < 0) := by omega
  have hmax : max ((t.length : Int) + -1) 0 = ((t.length - 1 : Nat) : Int) := by omega
  have hmb : min ((e : Int)) (t.length : Int) = ((min e t.length : Nat) : Int) := by omega
  simp only [pySlice, if_pos ha, if_neg hb, hmax, hmb, Int.toNat_natCast]

lemma pySlice_take_drop (pre mid post : List Char) :
    pySlice (pre ++ mid ++ post) (pre.length : Int) ((pre.length + mid.length : Nat) : Int)
      = mid := by
  have ha : ¬ ((pre.length : Int) < 0) := by omega
  have hb : ¬ (((pre.length + mid.length : Nat) : Int) < 0) := by omega
  have hlen : (pre ++ mid ++ post).length = pre.length + mid.length + post.length := by
    simp
    omega
  have hma : min ((pre.length : Int)) ((pre ++ mid ++ post).length : Int)
      = ((pre.length : Nat) : Int) := by
    rw [hlen]; omega
  have hmb : min (((pre.length + mid.length : Nat) : Int)) ((pre ++ mid ++ post).length : Int)
      = ((pre.length + mid.length : Nat) : Int) := by
    rw [hlen]; omega
  simp only [pySlice, if_neg ha, if_neg hb, hma, hmb, Int.toNat_natCast]
  rw [List.take_left' (by simp), List.drop_left]

/-- C1 counterexample: the extraction is NOT independent of the surrounding
text.  The reply `"[1] ]"` contains the well-formed JSON array `"[1]"`
embedded in prose, but the stray `]` in the trailing prose makes the
first-`[`-to-last-`]` substring `"[1] ]"` unparseable, so the client yields
the failure outcome instead of the parse of the array. -/
theorem c1_bracket_extraction_cex :
    jsonLoads "[1]".data = some (.arr [.num "1".data]) ∧
    extractJsonArr "[1] ]".data = none :=
  ⟨rfl, rfl⟩

/-- C1 (amended): for every response text of the form `pre ++ s ++ post`
where `s` is a well-formed JSON array text (starting with `[` and ending
with `]`), the client returns exactly the parse of `s` — provided the
preceding prose contains no `[` and the following prose contains no `]`
(otherwise the first-`[`-to-last-`]` substring strays outside `s`). -/
theorem c1_bracket_extraction_amended (pre s post : List Char) (vs : List JsonV)
    (hpre : '[' ∉ pre) (hpost : ']' ∉ post)
    (hhead : s.head? = some '[') (hlast : s.getLast? = some ']')
    (hparse : jsonLoads s = some (.arr vs)) :
    extractJsonArr (pre ++ s ++ post) = some (.arr vs) := by
  obtain ⟨s1, rfl⟩ : ∃ s1, s = '[' :: s1 := by
    cases s with
    | nil => cases hhead
    | cons a t =>
      simp only [List.head?] at hhead
      injection hhead with h
      exact ⟨t, by rw [h]⟩
  have hassoc : (pre ++ ('[' :: s1)) ++ post = pre ++ (('[' :: s1) ++ post) :=
    List.append_assoc _ _ _
  have hfi : firstIdx '[' ((pre ++ ('[' :: s1)) ++ post) = some pre.length := by
    rw [hassoc, firstIdx_append_of_not_mem _ _ hpre]
    simp [firstIdx, List.cons_append]
  have hfind : pyFind ((pre ++ ('[' :: s1)) ++ post) '[' = ((pre.length : Nat) : Int) := by
    simp only [pyFind, hfi]
  have hrevhead : ('[' :: s1).reverse.head? = some ']' := by
    rw [List.head?_reverse]
    exact hlast
  obtain ⟨w, hw⟩ : ∃ w, ('[' :: s1).reverse = ']' :: w := by
    cases hrw : ('[' :: s1).reverse with
    | nil => rw [hrw] at hrevhead; cases hrevhead
    | cons a t =>
      rw [hrw] at hrevhead
      injection hrevhead with h
      exact ⟨t, by rw [h]⟩
  have hrev : ((pre ++ ('[' :: s1)) ++ post).reverse
      = post.reverse ++ (('[' :: s1).reverse ++ pre.reverse) := by
    simp [List.reverse_append]
  have hfi2 : firstIdx ']' (((pre ++ ('[' :: s1)) ++ post).reverse) = some post.length := by
    rw [hrev, firstIdx_append_of_not_mem _ _ (by rwa [List.mem_reverse]), hw]
    simp [firstIdx]
  have hrf : pyRFind ((pre ++ ('[' :: s1)) ++ post) ']' + 1
      = ((pre.length + ('[' :: s1).length : Nat) : Int) := by
    simp only [pyRFind, lastIdx, hfi2, Option.map_some']
    simp only [List.length_append, List.length_cons]
    omega
  rw [extractJsonArr, hfind, hrf, pySlice_take_drop]
  exact hparse

/-- C1 amended witness: `"Sure thing: [1] enjoy"` (no bracket noise in the
prose) extracts to the parse of `"[1]"`. -/
theorem c1_bracket_extraction_amended_witness :
    extractJsonArr ("Sure thing: ".data ++ "[1]".data ++ " enjoy".data)
      = some (.arr [.num "1".data]) :=
  c1_bracket_extraction_amended "Sure thing: ".data "[1]".data " enjoy".data
    [.num "1".data] (by decide) (by decide) rfl rfl rfl

/-- C2: every failure of the generation call collapses to the single `None`
outcome: a reply with no `[`-before-`]` pair, a bracketed substring that is
not valid JSON, a raised network error, a 4xx/5xx status, a non-JSON body,
and a body without the expected field chain all yield `None`. -/
theorem c2_failures_collapse_to_none :
    (∀ reply : List Char,
        (¬ ∃ i j : Nat, i ≤ j ∧ reply[i]? = some '[' ∧ reply[j]? = some ']') →
        extractJsonArr reply = none) ∧
    (∀ reply : List Char,
        jsonLoads (pySlice reply (pyFind reply '[') (pyRFind reply ']' + 1)) = none →
        extractJsonArr reply = none) ∧
    (ask_gemini .netError = none) ∧
    (∀ st body, 400 ≤ st → st < 600 → ask_gemini (.resp st body) = none) ∧
    (∀ st, ask_gemini (.resp st none) = none) ∧
    (∀ st b, navChain b = none → ask_gemini (.resp st (some b)) = none) := by
  refine ⟨?_, ?_, rfl, ?_, ?_, ?_⟩
  · intro reply H
    unfold extractJsonArr
    cases h1 : firstIdx '[' reply with
    | none =>
      have hfind : pyFind reply '[' = -1 := by simp [pyFind, h1]
      cases h2 : lastIdx ']' reply with
      | none =>
        have hrf : pyRFind reply ']' = -1 := by simp [pyRFind, h2]
        rw [hfind, hrf]
        norm_num
        rw [pySlice_b_zero]
        rfl
      | some r =>
        obtain ⟨hget, hlt⟩ := lastIdx_get h2
        have hrf : pyRFind reply ']' = (r : Int) := by simp [pyRFind, h2]
        rw [hfind, hrf, show ((r : Int) + 1) = ((r + 1 : Nat) : Int) by omega,
          pySlice_neg_one]
        rcases Nat.lt_or_ge (r + 1) reply.length with hcase | hcase
        · rw [List.drop_eq_nil_of_le]
          · rfl
          · simp only [List.length_take]
            omega
        · have hmin : min (r + 1) reply.length = reply.length := by omega
          have hr1 : r + 1 = reply.length := by omega
          rw [hmin, List.take_of_length_le (by omega),
            show reply.length - 1 = r by omega, drop_last_rbracket hget hr1]
          rfl
    | some i0 =>
      have hfind : pyFind reply '[' = (i0 : Int) := by simp [pyFind, h1]
      have hgeti := firstIdx_get '[' h1
      cases h2 : lastIdx ']' reply with
      | none =>
        have hrf : pyRFind reply ']' = -1 := by simp [pyRFind, h2]
        rw [hfind, hrf]
        norm_num
        have hz := pySlice_nat_of_le reply i0 0 (Nat.zero_le _)
        rw [Nat.cast_zero] at hz
        rw [hz]
        rfl
      | some r =>
        obtain ⟨hgetr, hltr⟩ := lastIdx_get h2
        have hri : r < i0 := by
          by_contra hge
          push_neg at hge
          exact H ⟨i0, r, hge, hgeti, hgetr⟩
        have hrf : pyRFind reply ']' = (r : Int) := by simp [pyRFind, h2]
        rw [hfind, hrf, show ((r : Int) + 1) = ((r + 1 : Nat) : Int) by omega,
          pySlice_nat_of_le _ _ _ (by omega)]
        rfl
  · intro reply hp
    unfold extractJsonArr
    exact hp
  · intro st body h4 h6
    simp only [ask_gemini, if_pos (And.intro h4 h6)]
  · intro st
    simp only [ask_gemini]
    split <;> rfl
  · intro st b hb
    simp only [ask_gemini, hb]
    split <;> rfl

/-- C2 witness: concrete failures — a reply with no brackets, a reply whose
bracketed substring is not JSON, a 500 response, a non-JSON body, and a body
without the expected fields — all evaluate to `None`. -/
theorem c2_failures_collapse_to_none_witness :
    extractJsonArr "no brackets at all".data = none ∧
    extractJsonArr "bad [x] json".data = none ∧
    ask_gemini (.resp 500 (some .null)) = none ∧
    ask_gemini (.resp 200 none) = none ∧
    ask_gemini (.resp 200 (some .null)) = none := by
  refine ⟨?_, ?_, ?_, ?_, ?_⟩
  · refine c2_failures_collapse_to_none.1 "no brackets at all".data ?_
    rintro ⟨i, j, hij, hi, hj⟩
    exact absurd (List.getElem?_mem hi) (by decide)
  · exact c2_failures_collapse_to_none.2.1 "bad [x] json".data rfl
  · exact c2_failures_collapse_to_none.2.2.2.1 500 (some .null) (by omega) (by omega)
  · exact c2_failures_collapse_to_none.2.2.2.2.1 200
  · exact c2_failures_collapse_to_none.2.2.2.2.2 200 .null rfl
